import Mathlib

set_option linter.unusedVariables false

/-!
Shallow embedding of the step-execution core of the `motia` repository,
covering `packages/core/src/call-step-file.ts` and
`packages/core/src/node/node-runner.ts`.

JSON payload values are kept opaque through a type parameter `V`.
-/

namespace Motia

/-- An entry of `step.config.emits`: per the spec (§3) an emits entry is
either a bare topic string or a record `{topic, label?, conditional?}`. -/
inductive EmitEntry where
  | bare (topic : String)
  | tagged (topic : String) (label : Option String) (conditional : Option Bool)
  deriving Repr, DecidableEq

/-- The topic string an emits entry is tagged by. -/
def EmitEntry.topic : EmitEntry → String
  | .bare t => t
  | .tagged t _ _ => t

/-- The step configuration fields used by `call-step-file.ts`:
`name`, `emits`, `flows` (optional in the TypeScript types). -/
structure StepConfig where
  name : String
  emits : List EmitEntry
  flows : Option (List String)
  deriving Repr, DecidableEq

/-- A step record `{filePath, version, config}` (spec §3). -/
structure Step where
  filePath : String
  version : String
  config : StepConfig
  deriving Repr, DecidableEq

/-- Modelled from the spec: `isAllowedToEmit` is imported by
`call-step-file.ts` from `packages/core/src/utils`, which is not in the
source tree. The spec (§4.7) says: enforce `event.topic ∈ step.config.emits`,
tagged by topic string, matching the form in declarations. -/
def isAllowedToEmit (step : Step) (topic : String) : Bool :=
  (step.config.emits.map EmitEntry.topic).contains topic

/-- The event payload of an `emit` RPC: `{topic, data, traceId, flows}`
(`call-step-file.ts` spreads this record; the attached logger handle is
modelled outside the data). -/
structure Event (V : Type) where
  topic : String
  data : V
  traceId : String
  flows : Option (List String)
  deriving Repr, DecidableEq

/-- Outcome of the parent-side `emit` RPC handler: either the event is
forwarded to the event manager, or an invalid-emit warning is printed
(identifying the step and the offending topic) and the emit is dropped. -/
inductive EmitAction (V : Type) where
  | forward (event : Event V)
  | printInvalidEmit (stepName : String) (topic : String)
  deriving Repr, DecidableEq

/-- The `emit` handler registered in `callStepFile`
(`call-step-file.ts` lines 101-107): if `isAllowedToEmit step input.topic`
fails, print an invalid-emit warning; otherwise forward
`{ ...input, traceId, flows: step.config.flows }` to the event manager,
where `traceId` is the executor's own trace id. -/
def emitHandler {V : Type} (step : Step) (traceId : String) (input : Event V) :
    EmitAction V :=
  if !(isAllowedToEmit step input.topic) then
    .printInvalidEmit step.config.name input.topic
  else
    .forward { input with traceId := traceId, flows := step.config.flows }

/-- Input of the `state.get` / `state.delete` RPCs: `{traceId, key}`. -/
structure StateGetInput where
  traceId : String
  key : String
  deriving Repr, DecidableEq

/-- Input of the `state.set` RPC: `{traceId, key, value}`. -/
structure StateSetInput (V : Type) where
  traceId : String
  key : String
  value : V
  deriving Repr, DecidableEq

/-- Input of the `state.clear` RPC: `{traceId}`. -/
structure StateClearInput where
  traceId : String
  deriving Repr, DecidableEq

/-- Input of the `state.getGroup` and stream `get`/`delete`/`getGroup`
RPCs: `{groupId, id}`. -/
structure StateStreamGetInput where
  groupId : String
  id : String
  deriving Repr, DecidableEq

/-- A call the parent makes into its `InternalStateManager`. -/
inductive StateCall (V : Type) where
  | get (traceId : String) (key : String)
  | set (traceId : String) (key : String) (value : V)
  | delete (traceId : String) (key : String)
  | clear (traceId : String)
  | getGroup (groupId : String)
  deriving Repr, DecidableEq

/-- The trace id a state-manager call operates under
(`state.getGroup` is keyed by group id, not by trace id). -/
def StateCall.traceIdUsed {V : Type} : StateCall V → Option String
  | .get t _ => some t
  | .set t _ _ => some t
  | .delete t _ => some t
  | .clear t => some t
  | .getGroup _ => none

/-- The `state.get` handler (`call-step-file.ts` line 89):
`state.get(input.traceId, input.key)`. The executor's own trace id
(`parentTraceId`, in scope in the closure) is not consulted. -/
def stateGetHandler {V : Type} (parentTraceId : String) (input : StateGetInput) :
    StateCall V :=
  .get input.traceId input.key

/-- The `state.set` handler (`call-step-file.ts` lines 90-92):
`state.set(input.traceId, input.key, input.value)`. -/
def stateSetHandler {V : Type} (parentTraceId : String) (input : StateSetInput V) :
    StateCall V :=
  .set input.traceId input.key input.value

/-- The `state.delete` handler (`call-step-file.ts` lines 93-95):
`state.delete(input.traceId, input.key)`. -/
def stateDeleteHandler {V : Type} (parentTraceId : String) (input : StateGetInput) :
    StateCall V :=
  .delete input.traceId input.key

/-- The `state.clear` handler (`call-step-file.ts` line 96):
`state.clear(input.traceId)`. -/
def stateClearHandler {V : Type} (parentTraceId : String) (input : StateClearInput) :
    StateCall V :=
  .clear input.traceId

/-- The `state.getGroup` handler (`call-step-file.ts` line 97):
`state.getGroup(input.groupId)`. -/
def stateGetGroupHandler {V : Type} (parentTraceId : String)
    (input : StateStreamGetInput) : StateCall V :=
  .getGroup input.groupId

/-- The triple returned by `getLanguageBasedRunner`:
`{command, runner, args}`. -/
structure RunnerChoice where
  command : String
  runner : String
  args : List String
  deriving Repr, DecidableEq

/-- The function `path.join` restricted to the way `call-step-file.ts`
uses it: joining plain relative segments with the separator. -/
def pathJoin (parts : List String) : String :=
  String.intercalate "/" parts

/-- JavaScript `String.prototype.endsWith`, as used by
`getLanguageBasedRunner`: `s` ends with `suffix` iff the last
`suffix.length` characters of `s` are exactly `suffix`. -/
def strEndsWith (s suffix : String) : Bool :=
  decide (s.data.drop (s.data.length - suffix.data.length) = suffix.data)

/-- The function `getLanguageBasedRunner` (`call-step-file.ts` lines
19-47). `dirname` stands for `__dirname` and `testMode` for
`process.env._MOTIA_TEST_MODE === 'true'`; a thrown `Error` is an
`Except.error`. -/
def getLanguageBasedRunner (testMode : Bool) (dirname : String)
    (stepFilePath : String) : Except String RunnerChoice :=
  let isPython := strEndsWith stepFilePath ".py"
  let isRuby := strEndsWith stepFilePath ".rb"
  let isNode := strEndsWith stepFilePath ".js" || strEndsWith stepFilePath ".ts"
  if isPython then
    let pythonRunner := pathJoin [dirname, "python", "python-runner.py"]
    .ok { runner := pythonRunner, command := "python", args := [] }
  else if isRuby then
    let rubyRunner := pathJoin [dirname, "ruby", "ruby-runner.rb"]
    .ok { runner := rubyRunner, command := "ruby", args := [] }
  else if isNode then
    if testMode then
      let nodeRunner := pathJoin [dirname, "node", "node-runner.ts"]
      .ok { runner := nodeRunner, command := "node", args := ["-r", "ts-node/register"] }
    else
      let nodeRunner := pathJoin [dirname, "node", "node-runner.js"]
      .ok { runner := nodeRunner, command := "node", args := [] }
  else
    .error ("Unsupported file extension " ++ stepFilePath)

/-- The spawn request handed to the `ProcessManager`
(`call-step-file.ts` lines 74-79): `command` and
`[...args, runner, step.filePath, jsonData]`. -/
structure SpawnSpec where
  command : String
  args : List String
  deriving Repr, DecidableEq

/-- The prefix of the `callStepFile` promise executor up to process
creation (`call-step-file.ts` lines 66-79): the runner is selected from
`step.filePath` before any `ProcessManager` is constructed, so an
unsupported extension rejects the step with the thrown error and no
spawn request is ever produced. -/
def callStepFileSpawnSpec (testMode : Bool) (dirname : String) (step : Step)
    (jsonData : String) : Except String SpawnSpec :=
  (getLanguageBasedRunner testMode dirname step.filePath).map fun r =>
    { command := r.command, args := r.args ++ [r.runner, step.filePath, jsonData] }

/-- The RPC messages a worker sends to the parent that matter for the
stored result: a `result` call carries a value, anything else
(`log`, `emit`, `state.*`, `streams.*`) leaves the stored result alone. -/
inductive RpcMsg (V : Type) where
  | result (value : V)
  | other
  deriving Repr, DecidableEq

/-- The effect of the `result` handler (`call-step-file.ts` lines 98-100)
on the mutable `result` variable: each `result` RPC overwrites it,
every other message leaves it unchanged. -/
def resultStep {V : Type} (stored : Option V) : RpcMsg V → Option V
  | .result v => some v
  | .other => stored

/-- The value of the `result` variable (initially `undefined`, modelled
as `none`) after the worker has sent a sequence of RPC messages. -/
def resultFold {V : Type} (msgs : List (RpcMsg V)) : Option V :=
  msgs.foldl resultStep none

/-- The settled state of the `callStepFile` promise. -/
inductive Outcome (V : Type) where
  | resolved (value : Option V)
  | rejected (message : String)
  deriving Repr, DecidableEq

/-- The `onProcessClose` callback (`call-step-file.ts` lines 139-147):
`code` is the Node.js close code, a number or `null` (when the child was
terminated by a signal). If `code !== 0 && code !== null`, reject with
`"Process exited with code " + code`; otherwise resolve with the stored
result. -/
def onProcessClose {V : Type} (stored : Option V) (code : Option Int) :
    Outcome V :=
  if code ≠ some 0 ∧ code ≠ none then
    .rejected ("Process exited with code " ++ toString (code.getD 0))
  else
    .resolved stored

/-- The promise outcome when the worker sends `msgs` and the process then
closes with `code`: the composition of the `result` handler with
`onProcessClose`. -/
def stepOutcome {V : Type} (msgs : List (RpcMsg V)) (code : Option Int) :
    Outcome V :=
  onProcessClose (resultFold msgs) code

/-- The error object delivered to `onProcessError`: its `code` property
(`'ENOENT'` when the executable was not found) and its identity. -/
structure ProcessError where
  code : Option String
  message : String
  deriving Repr, DecidableEq

/-- What the `onProcessError` callback rejects with: either a fabricated
string message or the error object itself. -/
inductive ErrorRejection where
  | withMessage (message : String)
  | withError (error : ProcessError)
  deriving Repr, DecidableEq

/-- The `onProcessError` callback (`call-step-file.ts` lines 150-163):
on `error.code === 'ENOENT'` reject with
`"Executable " + command + " not found"`, otherwise reject with the
error itself. -/
def onProcessError (command : String) (error : ProcessError) : ErrorRejection :=
  if error.code = some "ENOENT" then
    .withMessage ("Executable " ++ command ++ " not found")
  else
    .withError error

/-- The stream RPC method names the parent registers for a declared
stream `name` (`call-step-file.ts` lines 109-124): `get`, `set`,
`delete`, `getGroup`. -/
def parentStreamMethods (name : String) : List String :=
  [ "streams." ++ name ++ ".get"
  , "streams." ++ name ++ ".set"
  , "streams." ++ name ++ ".delete"
  , "streams." ++ name ++ ".getGroup" ]

/-- The stream RPC method names the Node worker's context object can send
for a declared stream `name` (`node-runner.ts` lines 43-56): `get`,
`update`, `delete`, `create`. -/
def nodeWorkerStreamMethods (name : String) : List String :=
  [ "streams." ++ name ++ ".get"
  , "streams." ++ name ++ ".update"
  , "streams." ++ name ++ ".delete"
  , "streams." ++ name ++ ".create" ]

/-- A loaded step module as `node-runner.ts` sees it after `require`:
its `handler` export when it is a function, and its configured
middleware chain. Middleware has shape `(data, ctx, next) → result`;
the context is elided as it does not affect the data flow modelled here. -/
structure NodeModule (V : Type) where
  handler : Option (V → V)
  middleware : List (V → (Unit → V) → V)

/-- The function `composeMiddleware` (spec §9): the middleware list folds into a
single function, each entry receiving the data and a `next` continuation,
with the terminal `next` invoking the handler. -/
def composeMiddleware {V : Type} (ms : List (V → (Unit → V) → V))
    (data : V) (handlerFn : Unit → V) : V :=
  match ms with
  | [] => handlerFn ()
  | m :: rest => m data (fun _ => composeMiddleware rest data handlerFn)

/-- The observable outcome of one `runTypescriptModule` run: the process
exit code, the error text printed to stderr (if any), the RPC messages
sent to the parent, and whether the user handler was invoked. -/
structure NodeRunOutcome (V : Type) where
  exitCode : Nat
  stderrLog : Option String
  sent : List (RpcMsg V)
  handlerCalled : Bool

/-- The function `runTypescriptModule` (`node-runner.ts` lines 26-79): if the loaded
module has no `handler` function, throw
`"Function handler not found in module " + filePath`; the catch block
logs `"Error running TypeScript module:"` with the error to stderr and
exits with code 1, so the user handler is never called. Otherwise run
the handler through the composed middleware, send its result as a
`result` RPC and exit with code 0. -/
def runTypescriptModule {V : Type} (module : NodeModule V) (filePath : String)
    (data : V) : NodeRunOutcome V :=
  match module.handler with
  | none =>
    { exitCode := 1
    , stderrLog := some ("Error running TypeScript module: Error: " ++
        "Function handler not found in module " ++ filePath)
    , sent := []
    , handlerCalled := false }
  | some h =>
    let result := composeMiddleware module.middleware data (fun _ => h data)
    { exitCode := 0
    , stderrLog := none
    , sent := [.result result]
    , handlerCalled := true }

/-! Concrete fixtures used by witnesses and counterexamples. -/

/-- A concrete event step whose config declares `emits: ["b"]` and
`flows: ["flowA"]`. -/
def stepA : Step :=
  { filePath := "steps/a.step.ts"
  , version := "1"
  , config := { name := "stepA", emits := [EmitEntry.bare "b"], flows := some ["flowA"] } }

/-- A concrete Python step file. -/
def stepPy : Step :=
  { filePath := "steps/p.step.py"
  , version := "1"
  , config := { name := "pyStep", emits := [], flows := none } }

/-- A concrete step file with an unsupported extension. -/
def stepTxt : Step :=
  { filePath := "steps/t.step.txt"
  , version := "1"
  , config := { name := "txtStep", emits := [], flows := none } }

/-- A concrete emit payload on the declared topic `b`, carrying a forged
trace id and forged flows the parent must ignore. -/
def evForged : Event Nat :=
  { topic := "b", data := 7, traceId := "forged-trace", flows := some ["forged-flow"] }

/-- The event the parent actually forwards for `evForged` under its own
trace id `t1`: topic and data kept, trace id and flows overridden. -/
def evForwarded : Event Nat :=
  { topic := "b", data := 7, traceId := "t1", flows := some ["flowA"] }

/-- A concrete loaded module without a `handler` export. -/
def moduleNoHandler : NodeModule Nat :=
  { handler := none, middleware := [] }

/-! Helper lemmas. -/

/-- Two suffix matches of the same string with suffixes of equal length
can only both succeed for equal suffixes. -/
theorem strEndsWith_unique (s a b : String) (hlen : a.data.length = b.data.length)
    (ha : strEndsWith s a = true) (hb : strEndsWith s b = true) : a = b := by
  unfold strEndsWith at ha hb
  rw [decide_eq_true_iff] at ha hb
  have hdata : a.data = b.data := by rw [← ha, ← hb, hlen]
  cases a
  cases b
  exact congrArg String.mk hdata

/-- If `s` ends with `b`, it cannot also end with a different suffix `a`
of the same length. -/
theorem strEndsWith_false_of_other (s a b : String)
    (hlen : a.data.length = b.data.length) (hne : a ≠ b)
    (hb : strEndsWith s b = true) : strEndsWith s a = false := by
  cases hx : strEndsWith s a with
  | false => rfl
  | true => exact absurd (strEndsWith_unique s a b hlen hx hb) hne

/-- Folding the `result`-handler transition over messages that contain no
`result` call leaves the stored value unchanged. -/
theorem foldl_resultStep_const {V : Type} (l : List (RpcMsg V)) (acc : Option V)
    (h : ∀ m ∈ l, m = RpcMsg.other) : l.foldl resultStep acc = acc := by
  induction l generalizing acc with
  | nil => rfl
  | cons x xs ih =>
    have hx : x = RpcMsg.other := h x (by simp)
    subst hx
    rw [List.foldl_cons]
    exact ih acc fun m hm => h m (by simp [hm])

/-! Claim theorems. -/

/-- C1: an `emit` RPC from a worker executing step `step` is forwarded to
the event manager iff the emitted topic is in `step.config.emits` (per
`isAllowedToEmit`); otherwise the emission is dropped and an invalid-emit
warning naming the step and the topic is printed — the handler still
returns an action, so the step can continue and succeed. -/
theorem emit_forwarded_iff_allowed {V : Type} (step : Step) (traceId : String)
    (input : Event V) :
    ((∃ e, emitHandler step traceId input = EmitAction.forward e) ↔
        isAllowedToEmit step input.topic = true)
    ∧ (isAllowedToEmit step input.topic = false →
        emitHandler step traceId input =
          EmitAction.printInvalidEmit step.config.name input.topic) := by
  unfold emitHandler
  by_cases h : isAllowedToEmit step input.topic
  · simp [h]
  · simp [h]

/-- Witness for C1 at a concrete step and emit payload. -/
theorem emit_forwarded_iff_allowed_witness :
    ((∃ e, emitHandler stepA "t1" evForged = EmitAction.forward e) ↔
        isAllowedToEmit stepA evForged.topic = true)
    ∧ (isAllowedToEmit stepA evForged.topic = false →
        emitHandler stepA "t1" evForged =
          EmitAction.printInvalidEmit stepA.config.name evForged.topic) :=
  emit_forwarded_iff_allowed stepA "t1" evForged

/-- C2 counterexample: the parent-side state RPC handlers do not
substitute the executor's own trace id; a `state.get` RPC whose payload
carries the worker-supplied trace id `trace-worker` is executed against
`trace-worker`, not against the parent's `trace-parent`, contradicting
the claim that no handler can reach state of a different trace. -/
theorem state_rpc_uses_worker_traceId :
    StateCall.traceIdUsed
        (stateGetHandler (V := Nat) "trace-parent"
          { traceId := "trace-worker", key := "k" }) = some "trace-worker"
    ∧ StateCall.traceIdUsed
        (stateGetHandler (V := Nat) "trace-parent"
          { traceId := "trace-worker", key := "k" }) ≠ some "trace-parent" := by
  exact ⟨rfl, by decide⟩

/-- C2 amended: every state RPC handler executes the call under the trace
id carried in the worker's RPC payload (`state.getGroup` under the
payload's group id); the executor's own trace id, though in scope in
each closure, is not consulted. -/
theorem state_rpc_traceId_from_payload {V : Type} (parentTraceId : String)
    (g : StateGetInput) (s : StateSetInput V) (c : StateClearInput)
    (gg : StateStreamGetInput) :
    StateCall.traceIdUsed (stateGetHandler (V := V) parentTraceId g) = some g.traceId
    ∧ StateCall.traceIdUsed (stateSetHandler parentTraceId s) = some s.traceId
    ∧ StateCall.traceIdUsed (stateDeleteHandler (V := V) parentTraceId g) = some g.traceId
    ∧ StateCall.traceIdUsed (stateClearHandler (V := V) parentTraceId c) = some c.traceId
    ∧ StateCall.traceIdUsed (stateGetGroupHandler (V := V) parentTraceId gg) = none :=
  ⟨rfl, rfl, rfl, rfl, rfl⟩

/-- C3: whenever the `emit` handler forwards an event, the forwarded
event carries the executor's own trace id and the step's configured
flows — whatever `traceId` and `flows` the worker put in the emit payload
are overwritten, so a worker cannot forge a trace id it did not
receive. -/
theorem forwarded_event_traceId_overridden {V : Type} (step : Step)
    (traceId : String) (input e : Event V)
    (h : emitHandler step traceId input = EmitAction.forward e) :
    e.traceId = traceId ∧ e.flows = step.config.flows := by
  unfold emitHandler at h
  by_cases hb : isAllowedToEmit step input.topic
  · simp [hb] at h
    subst h
    exact ⟨rfl, rfl⟩
  · simp [hb] at h

/-- Witness for C3: the concrete forwarded event for `evForged` (which
carries a forged trace id) has the executor's trace id `t1` and
`stepA`'s flows. -/
theorem forwarded_event_traceId_overridden_witness :
    Event.traceId (V := Nat) evForwarded = "t1"
    ∧ Event.flows (V := Nat) evForwarded = stepA.config.flows :=
  forwarded_event_traceId_overridden stepA "t1" evForged evForwarded (by decide)

/-- C4 counterexample: a worker terminated by a signal closes with
`code = null`, and `onProcessClose` then resolves the invocation with the
stored result — a signal-terminated exit is reported as success, not as
the failure the claim requires. -/
theorem signal_exit_resolves :
    stepOutcome [RpcMsg.result (5 : Nat)] none = Outcome.resolved (some 5)
    ∧ stepOutcome [RpcMsg.result (5 : Nat)] none ≠
        Outcome.rejected "Process exited with code 0" := by
  exact ⟨rfl, by decide⟩

/-- C4 amended: `callStepFile` rejects with "Process exited with code N"
exactly when the close code is a nonzero number; it resolves with the
stored result both when the exit code is 0 and when the process was
terminated by a signal (close code `null`). -/
theorem process_close_outcome {V : Type} (msgs : List (RpcMsg V)) (c : Int)
    (hc : c ≠ 0) :
    stepOutcome msgs (some c) =
        Outcome.rejected ("Process exited with code " ++ toString c)
    ∧ stepOutcome msgs (some 0) = Outcome.resolved (resultFold msgs)
    ∧ stepOutcome msgs none = Outcome.resolved (resultFold msgs) := by
  unfold stepOutcome onProcessClose
  refine ⟨?_, ?_, ?_⟩
  · simp [hc]
  · simp
  · simp

/-- Witness for the amended C4 at exit code 1. -/
theorem process_close_outcome_witness :
    (1 : Int) ≠ 0
    ∧ (stepOutcome ([] : List (RpcMsg Nat)) (some 1) =
          Outcome.rejected ("Process exited with code " ++ toString (1 : Int))
        ∧ stepOutcome ([] : List (RpcMsg Nat)) (some 0) =
          Outcome.resolved (resultFold [])
        ∧ stepOutcome ([] : List (RpcMsg Nat)) none =
          Outcome.resolved (resultFold [])) :=
  ⟨by decide, process_close_outcome [] 1 (by decide)⟩

/-- C5: the Node worker's stream context sends the RPC methods
`streams.<name>.update` and `streams.<name>.create`, but the parent
registers handlers only for `streams.<name>.{get, set, delete, getGroup}`
— the produced and consumed method names are not identical, so the
claimed matching fails for the CRUD set. -/
theorem node_stream_methods_not_registered :
    "streams.foo.update" ∈ nodeWorkerStreamMethods "foo"
    ∧ "streams.foo.update" ∉ parentStreamMethods "foo"
    ∧ "streams.foo.create" ∈ nodeWorkerStreamMethods "foo"
    ∧ "streams.foo.create" ∉ parentStreamMethods "foo"
    ∧ "streams.foo.set" ∈ parentStreamMethods "foo"
    ∧ "streams.foo.set" ∉ nodeWorkerStreamMethods "foo"
    ∧ "streams.foo.getGroup" ∈ parentStreamMethods "foo"
    ∧ "streams.foo.getGroup" ∉ nodeWorkerStreamMethods "foo" := by
  decide

/-- C6: runner selection by file extension — `.py` chooses the `python`
command, `.rb` the `ruby` command, `.js`/`.ts` the `node` command, and
any other extension makes `getLanguageBasedRunner` throw
"Unsupported file extension", so `callStepFileSpawnSpec` produces no
spawn request: the step fails before any process is spawned. -/
theorem runner_selection_by_extension (testMode : Bool) (dirname : String)
    (step : Step) (jsonData : String) :
    (strEndsWith step.filePath ".py" = true →
      ∃ r, getLanguageBasedRunner testMode dirname step.filePath = Except.ok r
        ∧ r.command = "python")
    ∧ (strEndsWith step.filePath ".rb" = true →
      ∃ r, getLanguageBasedRunner testMode dirname step.filePath = Except.ok r
        ∧ r.command = "ruby")
    ∧ ((strEndsWith step.filePath ".js" = true ∨ strEndsWith step.filePath ".ts" = true) →
      ∃ r, getLanguageBasedRunner testMode dirname step.filePath = Except.ok r
        ∧ r.command = "node")
    ∧ (strEndsWith step.filePath ".py" = false →
        strEndsWith step.filePath ".rb" = false →
        strEndsWith step.filePath ".js" = false →
        strEndsWith step.filePath ".ts" = false →
        getLanguageBasedRunner testMode dirname step.filePath =
            Except.error ("Unsupported file extension " ++ step.filePath)
          ∧ callStepFileSpawnSpec testMode dirname step jsonData =
            Except.error ("Unsupported file extension " ++ step.filePath)) := by
  refine ⟨?_, ?_, ?_, ?_⟩
  · intro h
    refine ⟨{ runner := pathJoin [dirname, "python", "python-runner.py"]
            , command := "python", args := [] }, ?_, rfl⟩
    simp [getLanguageBasedRunner, h]
  · intro h
    have hpy : strEndsWith step.filePath ".py" = false :=
      strEndsWith_false_of_other step.filePath ".py" ".rb" (by decide) (by decide) h
    refine ⟨{ runner := pathJoin [dirname, "ruby", "ruby-runner.rb"]
            , command := "ruby", args := [] }, ?_, rfl⟩
    simp [getLanguageBasedRunner, hpy, h]
  · intro h
    have hpy : strEndsWith step.filePath ".py" = false := by
      rcases h with hj | ht
      · exact strEndsWith_false_of_other step.filePath ".py" ".js" (by decide) (by decide) hj
      · exact strEndsWith_false_of_other step.filePath ".py" ".ts" (by decide) (by decide) ht
    have hrb : strEndsWith step.filePath ".rb" = false := by
      rcases h with hj | ht
      · exact strEndsWith_false_of_other step.filePath ".rb" ".js" (by decide) (by decide) hj
      · exact strEndsWith_false_of_other step.filePath ".rb" ".ts" (by decide) (by decide) ht
    have hnode : (strEndsWith step.filePath ".js" || strEndsWith step.filePath ".ts") = true := by
      rcases h with hj | ht
      · simp [hj]
      · simp [ht]
    cases testMode with
    | false =>
      refine ⟨{ runner := pathJoin [dirname, "node", "node-runner.js"]
              , command := "node", args := [] }, ?_, rfl⟩
      simp [getLanguageBasedRunner, hpy, hrb, hnode]
    | true =>
      refine ⟨{ runner := pathJoin [dirname, "node", "node-runner.ts"]
              , command := "node", args := ["-r", "ts-node/register"] }, ?_, rfl⟩
      simp [getLanguageBasedRunner, hpy, hrb, hnode]
  · intro hpy hrb hjs hts
    constructor
    · simp [getLanguageBasedRunner, hpy, hrb, hjs, hts]
    · simp [callStepFileSpawnSpec, getLanguageBasedRunner, hpy, hrb, hjs, hts, Except.map]

/-- Witness for C6: a concrete `.py` step selects the `python` command
and a concrete `.txt` step is rejected before a spawn request exists. -/
theorem runner_selection_by_extension_witness :
    (∃ r, getLanguageBasedRunner false "dist" stepPy.filePath = Except.ok r
      ∧ r.command = "python")
    ∧ (getLanguageBasedRunner false "dist" stepTxt.filePath =
          Except.error ("Unsupported file extension " ++ stepTxt.filePath)
        ∧ callStepFileSpawnSpec false "dist" stepTxt "envelope" =
          Except.error ("Unsupported file extension " ++ stepTxt.filePath)) :=
  ⟨(runner_selection_by_extension false "dist" stepPy "envelope").1 (by decide),
    (runner_selection_by_extension false "dist" stepTxt "envelope").2.2.2
      (by decide) (by decide) (by decide) (by decide)⟩

/-- C7: a worker that exits with code 0 without ever sending a `result`
RPC resolves the invocation with `undefined` (`none`); a worker that
exits with code 0 after sending one `result` RPC resolves with exactly
the reported value. -/
theorem result_resolution {V : Type} (quiet pre post : List (RpcMsg V)) (v : V)
    (hq : ∀ m ∈ quiet, m = RpcMsg.other)
    (hpre : ∀ m ∈ pre, m = RpcMsg.other)
    (hpost : ∀ m ∈ post, m = RpcMsg.other) :
    stepOutcome quiet (some 0) = Outcome.resolved none
    ∧ stepOutcome (pre ++ RpcMsg.result v :: post) (some 0) =
        Outcome.resolved (some v) := by
  constructor
  · have hfold : resultFold quiet = none := foldl_resultStep_const quiet none hq
    unfold stepOutcome onProcessClose
    rw [hfold]
    simp
  · have hfold : resultFold (pre ++ RpcMsg.result v :: post) = some v := by
      unfold resultFold
      rw [List.foldl_append, List.foldl_cons]
      exact foldl_resultStep_const post (some v) hpost
    unfold stepOutcome onProcessClose
    rw [hfold]
    simp

/-- Witness for C7 on concrete message sequences. -/
theorem result_resolution_witness :
    (∀ m ∈ ([RpcMsg.other] : List (RpcMsg Nat)), m = RpcMsg.other)
    ∧ (∀ m ∈ ([RpcMsg.other] : List (RpcMsg Nat)), m = RpcMsg.other)
    ∧ (∀ m ∈ ([RpcMsg.other] : List (RpcMsg Nat)), m = RpcMsg.other)
    ∧ (stepOutcome ([RpcMsg.other] : List (RpcMsg Nat)) (some 0) =
          Outcome.resolved none
        ∧ stepOutcome ([RpcMsg.other] ++ RpcMsg.result 5 :: [RpcMsg.other]) (some 0) =
          Outcome.resolved (some 5)) :=
  ⟨by decide, by decide, by decide,
    result_resolution [RpcMsg.other] [RpcMsg.other] [RpcMsg.other] 5
      (by decide) (by decide) (by decide)⟩

/-- C8: on a process error with code `ENOENT` the invocation rejects with
"Executable <command> not found"; any other process error rejects with
the error object itself. -/
theorem process_error_rejection (command : String) (error : ProcessError) :
    (error.code = some "ENOENT" →
      onProcessError command error =
        ErrorRejection.withMessage ("Executable " ++ command ++ " not found"))
    ∧ (error.code ≠ some "ENOENT" →
      onProcessError command error = ErrorRejection.withError error) := by
  unfold onProcessError
  constructor
  · intro h
    simp [h]
  · intro h
    simp [h]

/-- Witness for C8 at a concrete `ENOENT` error and a concrete other
error. -/
theorem process_error_rejection_witness :
    onProcessError "node" { code := some "ENOENT", message := "spawn node ENOENT" } =
        ErrorRejection.withMessage ("Executable " ++ "node" ++ " not found")
    ∧ onProcessError "node" { code := some "EACCES", message := "denied" } =
        ErrorRejection.withError { code := some "EACCES", message := "denied" } :=
  ⟨(process_error_rejection "node"
      { code := some "ENOENT", message := "spawn node ENOENT" }).1 rfl,
    (process_error_rejection "node"
      { code := some "EACCES", message := "denied" }).2 (by decide)⟩

/-- C9: when a worker sends several `result` RPCs before exiting with
code 0, each later `result` overwrites the stored value and the
invocation resolves with the last reported value; no error is raised for
the extra `result` calls. -/
theorem last_result_wins {V : Type} (l1 l2 l3 : List (RpcMsg V)) (v1 v2 : V)
    (h3 : ∀ m ∈ l3, m = RpcMsg.other) :
    stepOutcome (l1 ++ RpcMsg.result v1 :: (l2 ++ RpcMsg.result v2 :: l3)) (some 0) =
      Outcome.resolved (some v2) := by
  have hfold :
      resultFold (l1 ++ RpcMsg.result v1 :: (l2 ++ RpcMsg.result v2 :: l3)) = some v2 := by
    unfold resultFold
    rw [List.foldl_append, List.foldl_cons, List.foldl_append, List.foldl_cons]
    exact foldl_resultStep_const l3 (some v2) h3
  unfold stepOutcome onProcessClose
  rw [hfold]
  simp

/-- Witness for C9: two `result` calls, the second value wins. -/
theorem last_result_wins_witness :
    (∀ m ∈ ([RpcMsg.other] : List (RpcMsg Nat)), m = RpcMsg.other)
    ∧ stepOutcome
        (([RpcMsg.other] : List (RpcMsg Nat)) ++
          RpcMsg.result 3 :: ([RpcMsg.other] ++ RpcMsg.result 9 :: [RpcMsg.other]))
        (some 0) = Outcome.resolved (some 9) :=
  ⟨by decide, last_result_wins [RpcMsg.other] [RpcMsg.other] [RpcMsg.other] 3 9 (by decide)⟩

/-- C10: loading a step module without a `handler` function makes the
Node runner report "Function handler not found in module <filePath>" on
stderr and exit with code 1 without sending any RPC, so the parent
rejects the invocation as a step failure and the user handler is never
called. -/
theorem missing_handler_failure {V : Type} (module : NodeModule V)
    (filePath : String) (data : V) (h : module.handler = none) :
    (runTypescriptModule module filePath data).exitCode = 1
    ∧ (runTypescriptModule module filePath data).stderrLog =
        some ("Error running TypeScript module: Error: " ++
          "Function handler not found in module " ++ filePath)
    ∧ (runTypescriptModule module filePath data).handlerCalled = false
    ∧ (runTypescriptModule module filePath data).sent = []
    ∧ stepOutcome (runTypescriptModule module filePath data).sent (some 1) =
        Outcome.rejected ("Process exited with code " ++ toString (1 : Int)) := by
  unfold runTypescriptModule
  rw [h]
  refine ⟨rfl, rfl, rfl, rfl, ?_⟩
  unfold stepOutcome resultFold onProcessClose
  rw [if_pos (by decide : ((some 1 : Option Int) ≠ some 0 ∧ (some 1 : Option Int) ≠ none))]
  rfl

/-- Witness for C10 at a concrete module without a handler export. -/
theorem missing_handler_failure_witness :
    (runTypescriptModule moduleNoHandler "steps/x.step.ts" 0).exitCode = 1
    ∧ (runTypescriptModule moduleNoHandler "steps/x.step.ts" 0).stderrLog =
        some ("Error running TypeScript module: Error: " ++
          "Function handler not found in module " ++ "steps/x.step.ts")
    ∧ (runTypescriptModule moduleNoHandler "steps/x.step.ts" 0).handlerCalled = false
    ∧ (runTypescriptModule moduleNoHandler "steps/x.step.ts" 0).sent = []
    ∧ stepOutcome (runTypescriptModule moduleNoHandler "steps/x.step.ts" 0).sent (some 1) =
        Outcome.rejected ("Process exited with code " ++ toString (1 : Int)) :=
  missing_handler_failure moduleNoHandler "steps/x.step.ts" 0 rfl

end Motia
